import Mathlib

/-!
Shallow embedding of the Trustless Staking Token contract
(`contracts/tezos/tst.py`, SmartPy, version 2.2) and verification of the
specification's claims about it.

Modelling conventions:
* Addresses are natural numbers.
* Michelson `mutez` amounts are modelled as `Int` values that are kept
  non-negative by construction; every subtraction of mutez goes through a
  checked operation that fails (as the Michelson `SUB_MUTEZ`/`ASSERT` would)
  when the result would be negative.
* `big_map`/`map` values are association lists with first-match lookup;
  deletion removes every binding of the key, so the list always denotes the
  same partial function a `big_map` does.
* Each entry point is a function `State → … → Except String …`; `.error`
  models a failed (fully reverted) operation, and the carried string is the
  exact `sp.verify` message from the source (`"failure"` for message-less
  traps such as `sp.as_nat` on a negative number, a missing map key, a mutez
  underflow, a division by zero, or an overdrawn transfer).
* `sp.amount` is the `Nat` parameter `amount` of value-bearing entry points;
  the contract's own native balance is tracked in the `balance` field (it has
  already been increased by `sp.amount` while an entry point runs, exactly as
  `sp.balance` behaves in Tezos).
-/

/-- Decidable equality for `Except`, so claims about concrete entry-point
results can be settled by evaluation. -/
instance {ε α : Type} [DecidableEq ε] [DecidableEq α] : DecidableEq (Except ε α) := fun
  | .error e, .error f =>
    if h : e = f then .isTrue (congrArg Except.error h)
    else .isFalse (fun c => h (Except.error.inj c))
  | .error _, .ok _ => .isFalse (fun c => Except.noConfusion c)
  | .ok _, .error _ => .isFalse (fun c => Except.noConfusion c)
  | .ok a, .ok b =>
    if h : a = b then .isTrue (congrArg Except.ok h)
    else .isFalse (fun c => h (Except.ok.inj c))

namespace Tst

abbrev Addr := Nat

/-- Lookup in an association list, first binding wins (the `big_map` read). -/
def getKV {κ α : Type} [DecidableEq κ] : List (κ × α) → κ → Option α
  | [], _ => none
  | (k', v) :: rest, k => if k' = k then some v else getKV rest k

/-- Lookup with a default value (`map.get(key, default_value3)` analogue). -/
def getKVD {κ α : Type} [DecidableEq κ] (m : List (κ × α)) (k : κ) (d : α) : α :=
  (getKV m k).getD d

/-- Write a binding (the `big_map` assignment): replaces the first binding of
the key in place, or appends a new one. -/
def setKV {κ α : Type} [DecidableEq κ] : List (κ × α) → κ → α → List (κ × α)
  | [], k, v => [(k, v)]
  | (k', v') :: rest, k, v =>
    if k' = k then (k, v) :: rest else (k', v') :: setKV rest k v

/-- Delete a key (the `del big_map[key]` operation): removes every binding. -/
def delKV {κ α : Type} [DecidableEq κ] (m : List (κ × α)) (k : κ) : List (κ × α) :=
  m.filter (fun kv => !(kv.1 = k : Bool))

/-- Membership test (`big_map.contains`). -/
def memKV {κ α : Type} [DecidableEq κ] (m : List (κ × α)) (k : κ) : Bool :=
  (getKV m k).isSome

/-- Checked `sp.as_nat`: fails on a negative argument. -/
def asNat (i : Int) : Except String Nat :=
  if 0 ≤ i then .ok i.toNat else .error "failure"

/-- Natural division via `EDIV`: fails on a zero divisor. -/
def natDiv (a b : Nat) : Except String Nat :=
  if b = 0 then .error "failure" else .ok (a / b)

/-- Mutez subtraction on `Nat` operands: fails when the result would be
negative. -/
def mutezSubN (a b : Nat) : Except String Nat :=
  if b ≤ a then .ok (a - b) else .error "failure"

/-- Mutez subtraction of a `Nat` amount from an `Int` mutez value: fails when
the result would be negative. -/
def mutezSubE (a : Int) (b : Nat) : Except String Int :=
  if (b : Int) ≤ a then .ok (a - (b : Int)) else .error "failure"

/-- Outgoing transfer `sp.send`: deducts the paid amount from the contract
balance, failing if the balance is insufficient. -/
def sendE (bal : Int) (x : Nat) : Except String Int :=
  if (x : Int) ≤ bal then .ok (bal - (x : Int)) else .error "failure"

/-- The `sp.split_tokens(m, q, tq)` primitive: `floor(m * q / tq)` on mutez. -/
def splitTokens (m : Int) (q tq : Nat) : Nat :=
  m.toNat * q / tq

/-- Token-ledger record stored per address in `balances`. -/
structure TokenAccount where
  balance : Nat
  approvals : List (Addr × Nat)
  deriving Repr, DecidableEq

/-- Storage of the `Instrument` contract, together with the contract's native
balance and current delegate (the two pieces of chain context the entry points
read or write). -/
structure State where
  schedule : List (Int × Nat)
  duration : Nat
  interval : Nat
  periods : Int
  start : Int
  freeCollateral : Int
  balances : List (Addr × TokenAccount)
  collateral : List (Addr × Nat)
  guarantors : List Addr
  delegate : Option Nat
  balance : Int
  deriving Repr, DecidableEq

/-- Constant `DELEGATE_THRESHOLD` from the source. -/
def DELEGATE_THRESHOLD : Nat := 650000

/-- Storage produced by `Instrument.__init__`. -/
def initState (schedule : List (Int × Nat)) (duration interval : Nat)
    (periods start : Int) : State :=
  { schedule := schedule, duration := duration, interval := interval,
    periods := periods, start := start, freeCollateral := 0, balances := [],
    collateral := [], guarantors := [], delegate := none, balance := 0 }

/-- The private helper `Instrument.getPeriod`. Returns `periods` after
maturity; otherwise computes `periods - (duration - (now - start)) / interval
- 1`, failing when `now < start` (the inner `sp.as_nat` traps) or when
`interval = 0` or `periods < 0`. -/
def getPeriod (st : State) (now : Int) : Except String Int :=
  if st.start + (st.duration : Int) < now then .ok st.periods
  else
    match asNat (now - st.start) with
    | .error e => .error e
    | .ok elapsed =>
      match asNat ((st.duration : Int) - (elapsed : Int)) with
      | .error e => .error e
      | .ok ttm =>
        match natDiv ttm st.interval with
        | .error e => .error e
        | .ok q =>
          match asNat st.periods with
          | .error e => .error e
          | .ok p => .ok ((p : Int) - (q : Int) - 1)

/-- Credit of a token balance as done at the end of `Instrument.deposit`:
create the record if absent, otherwise add to the existing balance. -/
def creditBalance (m : List (Addr × TokenAccount)) (sender : Addr) (amt : Nat) :
    List (Addr × TokenAccount) :=
  match getKV m sender with
  | none => setKV m sender ⟨amt, []⟩
  | some acct => setKV m sender ⟨acct.balance + amt, acct.approvals⟩

/-- Entry point `Instrument.deposit`. `amount` is `sp.amount` in mutez. -/
def deposit (st : State) (sender : Addr) (amount : Nat) (now : Int) :
    Except String State :=
  if amount = 0 then .error "Deposit too low"
  else
    match getPeriod st now with
    | .error e => .error e
    | .ok period =>
      match getKV st.schedule period with
      | none => .error "failure"
      | some rate =>
        let tr : Except String (Nat × Nat) :=
          if rate ≠ 0 then
            let tokenBalance := amount / rate
            let wholeCoins := amount / 1000000
            if tokenBalance ≤ wholeCoins then .error "Deposit too low"
            else .ok (tokenBalance, (tokenBalance - wholeCoins) * 1000000)
          else .ok (0, 0)
        match tr with
        | .error e => .error e
        | .ok (tokenBalance, requiredCollateral) =>
          if (requiredCollateral : Int) ≤ st.freeCollateral then
            match mutezSubE st.freeCollateral requiredCollateral with
            | .error e => .error e
            | .ok fc =>
              .ok { st with
                    freeCollateral := fc,
                    balances := creditBalance st.balances sender tokenBalance,
                    balance := st.balance + (amount : Int) }
          else .error "Insufficient collateral"

/-- The private helper `Instrument.verifyGuarantor`: linear scan of the
guarantor list for the account. -/
def verifyGuarantor (st : State) (account : Addr) : Bool :=
  st.guarantors.contains account

/-- Entry point `Instrument.redeem`. Returns the new state together with the
mutez amount sent to the sender. -/
def redeem (st : State) (sender : Addr) (amount : Nat) (now : Int) :
    Except String (State × Nat) :=
  match getKV st.balances sender with
  | none => .error "Address has no balance"
  | some acct =>
    if amount ≤ acct.balance then
      match getPeriod st now with
      | .error e => .error e
      | .ok currentPeriod =>
        match getKV st.schedule currentPeriod with
        | none => .error "failure"
        | some rate =>
          let xtzBalance := rate * amount
          match mutezSubN 1000000 rate with
          | .error e => .error e
          | .ok oneMinus =>
            let releasedCollateral := oneMinus * amount
            let remaining := acct.balance - amount
            let balances' :=
              if 0 < remaining then setKV st.balances sender ⟨remaining, acct.approvals⟩
              else delKV st.balances sender
            match sendE st.balance xtzBalance with
            | .error e => .error e
            | .ok bal' =>
              .ok ({ st with
                     freeCollateral := st.freeCollateral + (releasedCollateral : Int),
                     balances := balances',
                     balance := bal' }, xtzBalance)
    else .error "Insufficient token balance"

/-- Body of the first loop of `Instrument.terminate`: one depositor's forced
redemption at the terminal rate. The accumulator carries the evolving state
and the list of payouts sent so far. -/
def terminateBody (currentPeriod : Int) (acc : State × List (Addr × Nat))
    (depositor : Addr) : Except String (State × List (Addr × Nat)) :=
  let st := acc.1
  match getKV st.balances depositor with
  | none => .ok acc
  | some acct =>
    match getKV st.schedule currentPeriod with
    | none => .error "failure"
    | some rate =>
      let xtzBalance := rate * acct.balance
      match mutezSubN 1000000 rate with
      | .error e => .error e
      | .ok oneMinus =>
        let releasedCollateral := oneMinus * acct.balance
        match sendE st.balance xtzBalance with
        | .error e => .error e
        | .ok bal' =>
          .ok ({ st with
                 freeCollateral := st.freeCollateral + (releasedCollateral : Int),
                 balances := setKV st.balances depositor ⟨0, []⟩,
                 balance := bal' }, acc.2 ++ [(depositor, xtzBalance)])

/-- The first loop of `Instrument.terminate` over the supplied depositors. -/
def terminateLoop (currentPeriod : Int) :
    State × List (Addr × Nat) → List Addr → Except String (State × List (Addr × Nat))
  | acc, [] => .ok acc
  | acc, d :: ds =>
    match terminateBody currentPeriod acc d with
    | .error e => .error e
    | .ok acc' => terminateLoop currentPeriod acc' ds

/-- Entry point `Instrument.terminate`. Returns the new state and the list of
payouts (depositor, mutez) made. -/
def terminate (st : State) (sender : Addr) (depositors : List Addr) (now : Int) :
    Except String (State × List (Addr × Nat)) :=
  match getPeriod st now with
  | .error e => .error e
  | .ok currentPeriod =>
    if verifyGuarantor st sender then
      if currentPeriod = st.periods then
        match terminateLoop currentPeriod (st, []) depositors with
        | .error e => .error e
        | .ok (st1, payouts) =>
          .ok ({ st1 with
                 balances := depositors.foldl delKV st1.balances }, payouts)
      else .error "Validity period not complete"
    else .error "Not a guarantor"

/-- Loop of `Instrument.rebalanceCollateralDeposit` over the guarantor list.
The accumulator is the evolving collateral map and the `newGuarantor` flag. -/
def rebalanceDepositLoop (sender : Addr)
    (currentCollateralBalance newCollateralBalance increase : Nat) :
    List (Addr × Nat) × Bool → List Addr → Except String (List (Addr × Nat) × Bool)
  | acc, [] => .ok acc
  | (coll, isNew), g :: gs =>
    match getKV coll g with
    | none => .error "failure"
    | some s =>
      let currentGuarantorBalance := currentCollateralBalance * s / 1000000
      if g ≠ sender then
        match natDiv (currentGuarantorBalance * 1000000) newCollateralBalance with
        | .error e => .error e
        | .ok share =>
          rebalanceDepositLoop sender currentCollateralBalance newCollateralBalance
            increase (setKV coll g share, isNew) gs
      else
        match natDiv ((currentGuarantorBalance + increase) * 1000000) newCollateralBalance with
        | .error e => .error e
        | .ok share =>
          rebalanceDepositLoop sender currentCollateralBalance newCollateralBalance
            increase (setKV coll g share, false) gs

/-- The private helper `Instrument.rebalanceCollateralDeposit`. The contract
balance has already been increased by the attached amount when it runs. -/
def rebalanceCollateralDeposit (st : State) (sender : Addr) (increase : Nat) :
    Except String State :=
  let newCollateralBalance := st.balance.toNat
  match asNat (st.balance - (increase : Int)) with
  | .error e => .error e
  | .ok currentCollateralBalance =>
    match rebalanceDepositLoop sender currentCollateralBalance newCollateralBalance
        increase (st.collateral, true) st.guarantors with
    | .error e => .error e
    | .ok (coll, isNew) =>
      if isNew then
        match natDiv (increase * 1000000) newCollateralBalance with
        | .error e => .error e
        | .ok share =>
          .ok { st with
                collateral := setKV coll sender share,
                guarantors := sender :: st.guarantors }
      else .ok { st with collateral := coll }

/-- Entry point `Instrument.depositCollateral`. `amount` is `sp.amount`. -/
def depositCollateral (st : State) (sender : Addr) (amount : Nat) :
    Except String State :=
  let st0 : State := { st with balance := st.balance + (amount : Int) }
  let step : Except String State :=
    if st0.guarantors.length = 0 then
      .ok { st0 with
            guarantors := sender :: st0.guarantors,
            collateral := setKV st0.collateral sender 1000000 }
    else
      if getKVD st0.collateral sender 0 = 1000000 then .ok st0
      else rebalanceCollateralDeposit st0 sender amount
  match step with
  | .error e => .error e
  | .ok st1 => .ok { st1 with freeCollateral := st1.freeCollateral + (amount : Int) }

/-- Loop of `Instrument.rebalanceCollateralWithdrawal` over the guarantor
list. The accumulator is the evolving collateral map and the
`removeGuarantor` flag. -/
def rebalanceWithdrawalLoop (sender : Addr)
    (currentCollateralBalance newCollateralBalance decrease : Nat) :
    List (Addr × Nat) × Bool → List Addr → Except String (List (Addr × Nat) × Bool)
  | acc, [] => .ok acc
  | (coll, removeG), g :: gs =>
    match getKV coll g with
    | none => .error "failure"
    | some s =>
      let currentGuarantorBalance := currentCollateralBalance * s / 1000000
      if g ≠ sender then
        match natDiv (currentGuarantorBalance * 1000000) newCollateralBalance with
        | .error e => .error e
        | .ok share =>
          rebalanceWithdrawalLoop sender currentCollateralBalance newCollateralBalance
            decrease (setKV coll g share, removeG) gs
      else
        match asNat ((currentGuarantorBalance : Int) - (decrease : Int)) with
        | .error e => .error e
        | .ok newBal =>
          if newBal < 20 then
            rebalanceWithdrawalLoop sender currentCollateralBalance newCollateralBalance
              decrease (delKV coll g, true) gs
          else
            match natDiv (newBal * 1000000) newCollateralBalance with
            | .error e => .error e
            | .ok share =>
              rebalanceWithdrawalLoop sender currentCollateralBalance newCollateralBalance
                decrease (setKV coll g share, removeG) gs

/-- The private helper `Instrument.rebalanceCollateralWithdrawal`. Runs before
the outgoing transfer, so the contract balance still holds the amount. -/
def rebalanceCollateralWithdrawal (st : State) (sender : Addr) (decrease : Nat) :
    Except String State :=
  let currentCollateralBalance := st.balance.toNat
  match asNat (st.balance - (decrease : Int)) with
  | .error e => .error e
  | .ok newCollateralBalance =>
    match rebalanceWithdrawalLoop sender currentCollateralBalance newCollateralBalance
        decrease (st.collateral, false) st.guarantors with
    | .error e => .error e
    | .ok (coll, removeG) =>
      if removeG then
        .ok { st with
              collateral := coll,
              guarantors := (st.guarantors.filter (fun g => g != sender)).reverse }
      else .ok { st with collateral := coll }

/-- Entry point `Instrument.withdrawCollateral`. Returns the new state and
the mutez amount sent to the sender. -/
def withdrawCollateral (st : State) (sender : Addr) (amount : Nat) :
    Except String (State × Nat) :=
  if memKV st.collateral sender then
    match getKV st.collateral sender with
    | none => .error "failure"
    | some s =>
      let share := splitTokens st.freeCollateral s 1000000
      if amount ≤ share then
        if (amount : Int) ≤ st.freeCollateral then
          match rebalanceCollateralWithdrawal st sender amount with
          | .error e => .error e
          | .ok st1 =>
            match mutezSubE st1.freeCollateral amount with
            | .error e => .error e
            | .ok fc =>
              match sendE st1.balance amount with
              | .error e => .error e
              | .ok bal' => .ok ({ st1 with freeCollateral := fc, balance := bal' }, amount)
        else .error "Insufficient free collateral"
      else .error "Requested amount exceeds total share"
  else .error "Not a guarantor"

/-- Entry point `Instrument.setDelegate`. The stored delegate is changed only
when the sender's recorded collateral share reaches `DELEGATE_THRESHOLD`
parts per million; below the threshold the call succeeds without change. -/
def setDelegate (st : State) (sender : Addr) (delegate : Option Nat) :
    Except String State :=
  if verifyGuarantor st sender then
    match getKV st.collateral sender with
    | none => .error "failure"
    | some s =>
      if DELEGATE_THRESHOLD ≤ s then .ok { st with delegate := delegate }
      else .ok st
  else .error "Not a guarantor"

/-- Entry point `Instrument.default`: credits the received amount to the free
collateral (baker rewards). It cannot fail. -/
def default (st : State) (amount : Nat) : State :=
  { st with
    freeCollateral := st.freeCollateral + (amount : Int),
    balance := st.balance + (amount : Int) }

/-- View `Instrument.getGuarantorRedeemableValue`: `none` when the account has
no collateral entry (the map access would trap). -/
def getGuarantorRedeemableValue (st : State) (guarantor : Addr) : Option Nat :=
  match getKV st.collateral guarantor with
  | none => none
  | some s =>
    let currentGuarantorBalance := splitTokens st.freeCollateral s 1000000
    if (currentGuarantorBalance : Int) < st.freeCollateral then some currentGuarantorBalance
    else some st.freeCollateral.toNat

/-- Token balance of an address as a total function (0 when the ledger has no
record, which is also what deletion of a record means). -/
def tokenBalanceOf (st : State) (a : Addr) : Nat :=
  match getKV st.balances a with
  | none => 0
  | some acct => acct.balance

/-- Sum of the mutez amounts in a payout list. -/
def payoutSum (l : List (Addr × Nat)) : Nat :=
  (l.map Prod.snd).sum

/-- The rate schedule used in the source's own test scenario. -/
def testSchedule : List (Int × Nat) :=
  [(0, 952380), (1, 957557), (2, 962763), (3, 967996), (4, 973258),
   (5, 978548), (6, 983868), (7, 989216), (8, 994593), (9, 1000000),
   (10, 1000000)]

/-- The instrument of the source's test scenario: 10 daily periods over 10
days, starting at timestamp 1000. -/
def testState : State :=
  initState testSchedule 864000 86400 10 1000

/-- States (with a ghost `depositedCollateral` accumulator) reachable from a
freshly constructed instrument by the six entry points named in the solvency
claim, with arbitrary parameters. The ghost `Int` tracks the cumulative net
collateral contributed by guarantors: it grows with `depositCollateral` and
shrinks with `withdrawCollateral`. -/
inductive Reach : State → Int → Prop where
  | init (schedule : List (Int × Nat)) (duration interval : Nat) (periods start : Int) :
      Reach (initState schedule duration interval periods start) 0
  | step_default (st : State) (dep : Int) (amount : Nat) :
      Reach st dep → Reach (Tst.default st amount) dep
  | step_deposit (st : State) (dep : Int) (sender : Addr) (amount : Nat) (now : Int)
      (st' : State) :
      Reach st dep → deposit st sender amount now = .ok st' → Reach st' dep
  | step_redeem (st : State) (dep : Int) (sender : Addr) (amount : Nat) (now : Int)
      (st' : State) (x : Nat) :
      Reach st dep → redeem st sender amount now = .ok (st', x) → Reach st' dep
  | step_terminate (st : State) (dep : Int) (sender : Addr) (depositors : List Addr)
      (now : Int) (st' : State) (xs : List (Addr × Nat)) :
      Reach st dep → terminate st sender depositors now = .ok (st', xs) → Reach st' dep
  | step_depositCollateral (st : State) (dep : Int) (sender : Addr) (amount : Nat)
      (st' : State) :
      Reach st dep → depositCollateral st sender amount = .ok st' →
      Reach st' (dep + (amount : Int))
  | step_withdrawCollateral (st : State) (dep : Int) (sender : Addr) (amount : Nat)
      (st' : State) (x : Nat) :
      Reach st dep → withdrawCollateral st sender amount = .ok (st', x) →
      Reach st' (dep - (amount : Int))

/-- Guarantor state used to settle the delegate-threshold claim: two
guarantors holding 51% and 49% of the 1,000,000 share scale. -/
def c7State : State :=
  { testState with
    collateral := [(1, 510000), (2, 490000)],
    guarantors := [1, 2],
    delegate := some 5 }

/-- Guarantor state whose first guarantor holds exactly the 650,000 ppm
threshold. -/
def c7BigState : State :=
  { testState with
    collateral := [(1, 650000), (2, 350000)],
    guarantors := [1, 2],
    delegate := some 5 }

/-- State with one guarantor, used for the early-terminate claim. -/
def c6State : State :=
  { testState with
    guarantors := [1],
    collateral := [(1, 1000000)] }

/-- State reached from a fresh instrument by a single `default` call carrying
100 mutez of baker rewards. -/
def c1State : State :=
  Tst.default testState 100

/-- Dilution scenario: two guarantors with 50% each, 1 tez of free collateral
and a 23 tez contract balance (the spread comes from depositors' funds); it is
reached by two 1 tez `depositCollateral` calls followed by a 21 tez
`deposit`. -/
def c8State : State :=
  { testState with
    guarantors := [1, 2],
    collateral := [(1, 500000), (2, 500000)],
    freeCollateral := 1000000,
    balance := 23000000 }

/-- Result of guarantor 2 depositing 1 mutez of collateral on `c8State`: the
rebalance rounds guarantor 1's share down to 499999 ppm. -/
def c8StateAfter : State :=
  { c8State with
    collateral := [(1, 499999), (2, 500000)],
    freeCollateral := 1000001,
    balance := 23000001 }

end Tst

namespace Tst

example : getPeriod (initState [(0, 952380)] 864000 86400 10 1000) 1001 = .ok 0 := by decide

example : getPeriod (initState [(0, 952380)] 864000 86400 10 1000) 87401 = .ok 1 := by decide

example : getPeriod (initState [(0, 952380)] 864000 86400 10 1000) 1000 = .ok (-1) := by decide

example :
    deposit (initState [((0 : Int), 952380)] 864000 86400 10 1000) 7 21000000 1001 =
      .error "Insufficient collateral" := by decide

end Tst

open Tst

/-- C10: whenever the guarantor list is empty, `depositCollateral` registers
the sender as the sole guarantor with share 1,000,000 regardless of the value
sent (including zero); the attached amount is only added to the free
collateral (and to the native balance that carries it). -/
theorem c10_bootstrap_guarantor (st : State) (sender : Addr) (amount : Nat)
    (h : st.guarantors = []) :
    depositCollateral st sender amount =
      .ok { st with
            guarantors := [sender],
            collateral := setKV st.collateral sender 1000000,
            freeCollateral := st.freeCollateral + (amount : Int),
            balance := st.balance + (amount : Int) } := by
  simp [depositCollateral, h]

/-- Witness for `c10_bootstrap_guarantor` at a concrete fresh instrument and a
zero attached amount. -/
theorem c10_bootstrap_guarantor_witness :
    depositCollateral testState 9 0 =
      .ok { testState with
            guarantors := [9],
            collateral := setKV testState.collateral 9 1000000,
            freeCollateral := testState.freeCollateral + ((0 : Nat) : Int),
            balance := testState.balance + ((0 : Nat) : Int) } :=
  c10_bootstrap_guarantor testState 9 0 rfl

/-- C7 (amended): a guarantor whose recorded collateral share is at least
`DELEGATE_THRESHOLD` = 650,000 ppm (65%, not 51%) who calls `setDelegate`
causes an immediate delegate change; below the threshold the call succeeds
but changes nothing. The contract has no proposal/voting state at all. -/
theorem c7_amended_setDelegate_threshold (st : State) (sender : Addr)
    (d : Option Nat) (s : Nat)
    (hg : verifyGuarantor st sender = true)
    (hs : getKV st.collateral sender = some s) :
    (DELEGATE_THRESHOLD ≤ s → setDelegate st sender d = .ok { st with delegate := d }) ∧
    (s < DELEGATE_THRESHOLD → setDelegate st sender d = .ok st) := by
  constructor
  · intro h
    simp only [setDelegate, hg, if_true, hs]
    rw [if_pos h]
  · intro h
    simp only [setDelegate, hg, if_true, hs]
    rw [if_neg (by omega)]

/-- Counterexample to C7 as stated: a guarantor holding exactly 51% of the
1,000,000 share scale proposes a delegate and the delegate does not change
(the call succeeds as a no-op), because the code's threshold is 650,000. -/
theorem c7_counterexample :
    getKV c7State.collateral 1 = some 510000 ∧
    setDelegate c7State 1 (some 7) = .ok c7State ∧
    c7State.delegate ≠ some 7 := by decide

/-- Witness for `c7_amended_setDelegate_threshold`: at the threshold the
delegate changes, below it the call is a no-op. -/
theorem c7_amended_witness :
    setDelegate c7BigState 1 (some 7) = .ok { c7BigState with delegate := some 7 } ∧
    setDelegate c7BigState 2 (some 7) = .ok c7BigState :=
  ⟨(c7_amended_setDelegate_threshold c7BigState 1 (some 7) 650000 (by decide)
      (by decide)).1 (by decide),
   (c7_amended_setDelegate_threshold c7BigState 2 (some 7) 350000 (by decide)
      (by decide)).2 (by decide)⟩

/-- C6 (amended): `terminate` called when the current period is not the
terminal one always fails (the whole operation reverts, leaving state
unchanged); the error is `Validity period not complete` when the caller is a
guarantor, while a non-guarantor caller is rejected as `Not a guarantor`
because the guarantor check runs first. -/
theorem c6_amended_terminate_early_fails (st : State) (sender : Addr)
    (depositors : List Addr) (now p : Int)
    (hp : getPeriod st now = .ok p) (hne : p ≠ st.periods) :
    (∃ e, terminate st sender depositors now = .error e) ∧
    (verifyGuarantor st sender = true →
      terminate st sender depositors now = .error "Validity period not complete") := by
  unfold terminate
  rw [hp]
  by_cases hg : verifyGuarantor st sender <;> simp [hg, hne]

/-- Counterexample to C6 as stated: a non-guarantor calling `terminate`
before maturity fails with `Not a guarantor`, not with
`Validity period not complete`. -/
theorem c6_counterexample :
    getPeriod c6State 1001 = .ok 0 ∧ (0 : Int) ≠ c6State.periods ∧
    terminate c6State 3 [4] 1001 = .error "Not a guarantor" ∧
    "Not a guarantor" ≠ "Validity period not complete" := by decide

/-- Witness for `c6_amended_terminate_early_fails`: a legitimate guarantor
calling before maturity is refused with `Validity period not complete`. -/
theorem c6_amended_witness :
    terminate c6State 1 [4] 1001 = .error "Validity period not complete" :=
  (c6_amended_terminate_early_fails c6State 1 [4] 1001 0 (by decide) (by decide)).2
    (by decide)

/-- C5 (amended): `getPeriod` returns `periods` once `now` is strictly past
`start + duration`; for `start ≤ now ≤ start + duration` it returns the
unclamped value `periods - (duration - (now - start)) / interval - 1`, which
is at most `periods - 1` but can be negative (no clamping to `[0, periods-1]`
happens); for `now < start` the call fails. -/
theorem c5_amended_getPeriod_spec (st : State) (now : Int)
    (hi : 0 < st.interval) (hp : 0 ≤ st.periods) :
    (st.start + (st.duration : Int) < now → getPeriod st now = .ok st.periods) ∧
    (now < st.start → getPeriod st now = .error "failure") ∧
    (st.start ≤ now → now ≤ st.start + (st.duration : Int) →
      getPeriod st now =
        .ok (st.periods -
          ((((st.duration : Int) - (now - st.start)).toNat / st.interval : Nat) : Int) - 1) ∧
      st.periods -
          ((((st.duration : Int) - (now - st.start)).toNat / st.interval : Nat) : Int) - 1 ≤
        st.periods - 1) := by
  refine ⟨fun h => by simp [getPeriod, h], fun h => ?_, fun h1 h2 => ?_⟩
  · have hlt : ¬ st.start + (st.duration : Int) < now := by omega
    simp only [getPeriod, hlt, if_false, asNat]
    rw [if_neg (by omega)]
  · have hlt : ¬ st.start + (st.duration : Int) < now := by omega
    have e1 : asNat (now - st.start) = .ok (now - st.start).toNat := by
      unfold asNat
      rw [if_pos (by omega)]
    have e2 : asNat ((st.duration : Int) - (((now - st.start).toNat : Nat) : Int)) =
        .ok ((st.duration : Int) - (now - st.start)).toNat := by
      unfold asNat
      rw [if_pos (by omega)]
      congr 1
      omega
    have e3 : natDiv (((st.duration : Int) - (now - st.start)).toNat) st.interval =
        .ok ((((st.duration : Int) - (now - st.start)).toNat) / st.interval) := by
      unfold natDiv
      rw [if_neg (by omega)]
    have e4 : asNat st.periods = .ok st.periods.toNat := by
      unfold asNat
      rw [if_pos hp]
    simp only [getPeriod, hlt, if_false, e1, e2, e3, e4]
    constructor
    · congr 1
      omega
    · have h0 : (0 : Int) ≤
          ((((st.duration : Int) - (now - st.start)).toNat / st.interval : Nat) : Int) :=
        Int.natCast_nonneg _
      omega

/-- Counterexample to C5 as stated: on the source's own test configuration
(duration 864000 = 10 daily periods), at `now = start` the function returns
`-1`, outside the claimed range `[0, periods]` — the claimed clamping does
not exist in the code. -/
theorem c5_counterexample :
    getPeriod testState testState.start = .ok (-1) ∧ ¬ (0 ≤ (-1 : Int)) := by decide

/-- Witness for `c5_amended_getPeriod_spec` in the in-term branch. -/
theorem c5_amended_witness :
    getPeriod testState 1001 =
      .ok (testState.periods -
        ((((testState.duration : Int) - (1001 - testState.start)).toNat /
            testState.interval : Nat) : Int) - 1) :=
  ((c5_amended_getPeriod_spec testState 1001 (by decide) (by decide)).2.2 (by decide)
    (by decide)).1

theorem mutezSubE_ok {a : Int} {b : Nat} {c : Int} (h : mutezSubE a b = .ok c) :
    0 ≤ c ∧ c = a - (b : Int) ∧ (b : Int) ≤ a := by
  unfold mutezSubE at h
  split at h
  · next hc =>
      cases h
      exact ⟨by omega, rfl, hc⟩
  · exact absurd h (by simp)

theorem mutezSubN_ok {a b c : Nat} (h : mutezSubN a b = .ok c) :
    c = a - b ∧ b ≤ a := by
  unfold mutezSubN at h
  split at h
  · next hc =>
      cases h
      exact ⟨rfl, hc⟩
  · exact absurd h (by simp)

theorem deposit_ok_fc_nonneg {st : State} {sender : Addr} {amount : Nat} {now : Int}
    {st' : State} (h : deposit st sender amount now = .ok st') :
    0 ≤ st'.freeCollateral := by
  unfold deposit at h
  repeat' first
    | (split at h)
    | (dsimp only at h)
  all_goals try exact Except.noConfusion h
  all_goals
    rename_i fc heq
    injection h with h2
    subst h2
    exact (mutezSubE_ok heq).1

theorem redeem_ok_fc_mono {st : State} {sender : Addr} {amount : Nat} {now : Int}
    {st' : State} {x : Nat} (h : redeem st sender amount now = .ok (st', x)) :
    st.freeCollateral ≤ st'.freeCollateral := by
  unfold redeem at h
  repeat' first
    | (split at h)
    | (dsimp only at h)
  all_goals try exact Except.noConfusion h
  all_goals
    injection h with h2
    injection h2 with h3 h4
    subst h3
    dsimp
    omega

theorem terminateBody_ok_fc_mono {p : Int} {acc acc' : State × List (Addr × Nat)}
    {d : Addr} (h : terminateBody p acc d = .ok acc') :
    acc.1.freeCollateral ≤ acc'.1.freeCollateral := by
  unfold terminateBody at h
  repeat' first
    | (split at h)
    | (dsimp only at h)
  all_goals try exact Except.noConfusion h
  all_goals first
    | (injection h with h2; subst h2; exact le_refl _)
    | (injection h with h2; rw [← h2]; dsimp; omega)

theorem terminateLoop_ok_fc_mono {p : Int} (ds : List Addr) :
    ∀ acc acc', terminateLoop p acc ds = .ok acc' →
      acc.1.freeCollateral ≤ acc'.1.freeCollateral := by
  induction ds with
  | nil =>
    intro acc acc' h
    unfold terminateLoop at h
    cases h
    exact le_refl _
  | cons d ds ih =>
    intro acc acc' h
    unfold terminateLoop at h
    split at h
    · exact absurd h (by simp)
    · next acc1 heq => exact le_trans (terminateBody_ok_fc_mono heq) (ih _ _ h)

theorem terminate_ok_fc_mono {st : State} {sender : Addr} {depositors : List Addr}
    {now : Int} {st' : State} {xs : List (Addr × Nat)}
    (h : terminate st sender depositors now = .ok (st', xs)) :
    st.freeCollateral ≤ st'.freeCollateral := by
  unfold terminate at h
  repeat' first
    | (split at h)
    | (dsimp only at h)
  all_goals try exact Except.noConfusion h
  all_goals
    rename_i st1 payouts heq
    injection h with h2
    injection h2 with h3 h4
    subst h3
    dsimp
    exact terminateLoop_ok_fc_mono depositors _ _ heq

theorem rebalanceCollateralDeposit_ok_fc {st : State} {sender : Addr} {increase : Nat}
    {st' : State} (h : rebalanceCollateralDeposit st sender increase = .ok st') :
    st'.freeCollateral = st.freeCollateral := by
  unfold rebalanceCollateralDeposit at h
  repeat' first
    | (split at h)
    | (dsimp only at h)
  all_goals try exact Except.noConfusion h
  all_goals
    injection h with h2
    subst h2
    rfl

theorem rebalanceCollateralWithdrawal_ok_fc {st : State} {sender : Addr} {decrease : Nat}
    {st' : State} (h : rebalanceCollateralWithdrawal st sender decrease = .ok st') :
    st'.freeCollateral = st.freeCollateral := by
  unfold rebalanceCollateralWithdrawal at h
  repeat' first
    | (split at h)
    | (dsimp only at h)
  all_goals try exact Except.noConfusion h
  all_goals
    injection h with h2
    subst h2
    rfl

theorem depositCollateral_ok_fc {st : State} {sender : Addr} {amount : Nat}
    {st' : State} (h : depositCollateral st sender amount = .ok st') :
    st'.freeCollateral = st.freeCollateral + (amount : Int) := by
  unfold depositCollateral at h
  dsimp only at h
  by_cases h1 : st.guarantors.length = 0
  · rw [if_pos h1] at h
    injection h with h2
    subst h2
    rfl
  · rw [if_neg h1] at h
    by_cases h2 : getKVD st.collateral sender 0 = 1000000
    · rw [if_pos h2] at h
      injection h with h3
      subst h3
      rfl
    · rw [if_neg h2] at h
      cases hreb : rebalanceCollateralDeposit
          { st with balance := st.balance + (amount : Int) } sender amount with
      | error e =>
        rw [hreb] at h
        exact Except.noConfusion h
      | ok st1 =>
        rw [hreb] at h
        injection h with h3
        subst h3
        dsimp
        rw [rebalanceCollateralDeposit_ok_fc hreb]

theorem withdrawCollateral_ok_fc_nonneg {st : State} {sender : Addr} {amount : Nat}
    {st' : State} {x : Nat} (h : withdrawCollateral st sender amount = .ok (st', x)) :
    0 ≤ st'.freeCollateral := by
  unfold withdrawCollateral at h
  repeat' first
    | (split at h)
    | (dsimp only at h)
  all_goals try exact Except.noConfusion h
  all_goals
    injection h with h2
    injection h2 with h3 h4
    subst h3
    dsimp
    exact (mutezSubE_ok (by assumption)).1

theorem getKV_setKV_self {κ α : Type} [DecidableEq κ] (m : List (κ × α)) (k : κ)
    (v : α) : getKV (setKV m k v) k = some v := by
  induction m with
  | nil => simp [setKV, getKV]
  | cons kv rest ih =>
    obtain ⟨k', v'⟩ := kv
    by_cases hk : k' = k
    · simp [setKV, hk, getKV]
    · simp [setKV, hk, getKV, ih]

theorem getKV_setKV_ne {κ α : Type} [DecidableEq κ] (m : List (κ × α)) (k k' : κ)
    (v : α) (h : k' ≠ k) : getKV (setKV m k v) k' = getKV m k' := by
  induction m with
  | nil =>
    simp only [setKV, getKV]
    rw [if_neg (fun hc => h hc.symm)]
  | cons kv rest ih =>
    obtain ⟨k0, v0⟩ := kv
    by_cases hk : k0 = k
    · subst hk
      simp only [setKV, if_pos rfl, getKV]
      rw [if_neg (fun hc => h hc.symm), if_neg (fun hc => h hc.symm)]
    · simp only [setKV, if_neg hk, getKV]
      by_cases hk' : k0 = k'
      · rw [if_pos hk', if_pos hk']
      · rw [if_neg hk', if_neg hk', ih]

theorem getKV_delKV_self {κ α : Type} [DecidableEq κ] (m : List (κ × α)) (k : κ) :
    getKV (delKV m k) k = none := by
  induction m with
  | nil => simp [delKV, getKV]
  | cons kv rest ih =>
    obtain ⟨k0, v0⟩ := kv
    by_cases hk : k0 = k
    · simpa [delKV, hk] using ih
    · simpa [delKV, getKV, hk] using ih

theorem creditBalance_getKV (m : List (Addr × TokenAccount)) (sender : Addr)
    (amt : Nat) :
    getKV (creditBalance m sender amt) sender =
      some ⟨(match getKV m sender with | none => 0 | some a => a.balance) + amt,
            (match getKV m sender with | none => [] | some a => a.approvals)⟩ := by
  unfold creditBalance
  cases h : getKV m sender <;> simp [getKV_setKV_self]

/-- Successful-path characterisation of `deposit`: with a positive rate, a
positive amount, a claim strictly above the whole-coin count and sufficient
free collateral, the deposit succeeds and produces exactly this state. -/
theorem deposit_ok_charac (st : State) (sender : Addr) (v : Nat) (now p : Int)
    (r : Nat) (hp : getPeriod st now = .ok p) (hr : getKV st.schedule p = some r)
    (hrpos : 0 < r) (hv : 0 < v) (hwc : v / 1000000 < v / r)
    (hfc : (((v / r - v / 1000000) * 1000000 : Nat) : Int) ≤ st.freeCollateral) :
    deposit st sender v now =
      .ok { st with
            freeCollateral :=
              st.freeCollateral - (((v / r - v / 1000000) * 1000000 : Nat) : Int),
            balances := creditBalance st.balances sender (v / r),
            balance := st.balance + (v : Int) } := by
  unfold deposit
  rw [if_neg (show ¬ v = 0 by omega), hp]
  dsimp only
  rw [hr]
  dsimp only
  rw [if_pos (show r ≠ 0 by omega)]
  rw [if_neg (show ¬ v / r ≤ v / 1000000 by omega)]
  dsimp only
  rw [if_pos hfc]
  have hms : mutezSubE st.freeCollateral ((v / r - v / 1000000) * 1000000) =
      .ok (st.freeCollateral - (((v / r - v / 1000000) * 1000000 : Nat) : Int)) := by
    unfold mutezSubE
    rw [if_pos hfc]
  rw [hms]

/-- C2: `deposit(value)` with `value > 0` at period `p` with rate `r > 0`
computes `claim = value / r` and `wholeUnits = value / 1000000`; it fails
with `Deposit too low` when `claim ≤ wholeUnits`, fails with
`Insufficient collateral` when `(claim - wholeUnits)` tez exceed the free
collateral, and otherwise decreases `freeCollateral` by exactly
`(claim - wholeUnits) * 1000000` mutez and credits the sender's token balance
with exactly `claim`. -/
theorem c2_deposit_spec (st : State) (sender : Addr) (v : Nat) (now p : Int)
    (r : Nat) (hp : getPeriod st now = .ok p) (hr : getKV st.schedule p = some r)
    (hrpos : 0 < r) (hv : 0 < v) :
    (v / r ≤ v / 1000000 → deposit st sender v now = .error "Deposit too low") ∧
    (v / 1000000 < v / r →
      st.freeCollateral < (((v / r - v / 1000000) * 1000000 : Nat) : Int) →
      deposit st sender v now = .error "Insufficient collateral") ∧
    (v / 1000000 < v / r →
      (((v / r - v / 1000000) * 1000000 : Nat) : Int) ≤ st.freeCollateral →
      deposit st sender v now =
        .ok { st with
              freeCollateral :=
                st.freeCollateral - (((v / r - v / 1000000) * 1000000 : Nat) : Int),
              balances := creditBalance st.balances sender (v / r),
              balance := st.balance + (v : Int) } ∧
      tokenBalanceOf
        { st with
          freeCollateral :=
            st.freeCollateral - (((v / r - v / 1000000) * 1000000 : Nat) : Int),
          balances := creditBalance st.balances sender (v / r),
          balance := st.balance + (v : Int) } sender =
        tokenBalanceOf st sender + v / r) := by
  refine ⟨fun hle => ?_, fun hwc hlt => ?_, fun hwc hfc => ⟨?_, ?_⟩⟩
  · unfold deposit
    rw [if_neg (show ¬ v = 0 by omega), hp]
    dsimp only
    rw [hr]
    dsimp only
    rw [if_pos (show r ≠ 0 by omega)]
    rw [if_pos hle]
  · unfold deposit
    rw [if_neg (show ¬ v = 0 by omega), hp]
    dsimp only
    rw [hr]
    dsimp only
    rw [if_pos (show r ≠ 0 by omega)]
    rw [if_neg (show ¬ v / r ≤ v / 1000000 by omega)]
    dsimp only
    rw [if_neg (by omega)]
  · exact deposit_ok_charac st sender v now p r hp hr hrpos hv hwc hfc
  · unfold tokenBalanceOf
    dsimp only
    rw [creditBalance_getKV]

/-- Witness state for the deposit claims: the test instrument holding 1000 tez
of free collateral. -/
def c2State : State :=
  { testState with freeCollateral := 1000000000, balance := 2000000000 }

/-- Witness for `c2_deposit_spec`: a 21 tez deposit at period 0 (rate 952380)
yields a 22-token claim and consumes exactly 1 tez of collateral. -/
theorem c2_deposit_spec_witness :
    deposit c2State 4 21000000 1001 =
      .ok { c2State with
            freeCollateral := c2State.freeCollateral -
              (((21000000 / 952380 - 21000000 / 1000000) * 1000000 : Nat) : Int),
            balances := creditBalance c2State.balances 4 (21000000 / 952380),
            balance := c2State.balance + ((21000000 : Nat) : Int) } ∧
    tokenBalanceOf
      { c2State with
        freeCollateral := c2State.freeCollateral -
          (((21000000 / 952380 - 21000000 / 1000000) * 1000000 : Nat) : Int),
        balances := creditBalance c2State.balances 4 (21000000 / 952380),
        balance := c2State.balance + ((21000000 : Nat) : Int) } 4 =
      tokenBalanceOf c2State 4 + 21000000 / 952380 :=
  (c2_deposit_spec c2State 4 21000000 1001 0 952380 (by decide) (by decide)
    (by decide) (by decide)).2.2 (by decide) (by decide)

/-- Successful-path characterisation of `redeem`: with a recorded balance at
least `amount`, a schedule entry `r ≤ 1 tez` for the current period and a
sufficient native balance for the payout, the redemption succeeds and
produces exactly this state and payout. -/
theorem redeem_ok_charac (st : State) (sender : Addr) (amount : Nat) (now p : Int)
    (r : Nat) (acct : TokenAccount)
    (hacct : getKV st.balances sender = some acct) (hamt : amount ≤ acct.balance)
    (hp : getPeriod st now = .ok p) (hr : getKV st.schedule p = some r)
    (hrle : r ≤ 1000000) (hsend : ((r * amount : Nat) : Int) ≤ st.balance) :
    redeem st sender amount now =
      .ok ({ st with
             freeCollateral :=
               st.freeCollateral + (((1000000 - r) * amount : Nat) : Int),
             balances :=
               if 0 < acct.balance - amount
               then setKV st.balances sender ⟨acct.balance - amount, acct.approvals⟩
               else delKV st.balances sender,
             balance := st.balance - ((r * amount : Nat) : Int) }, r * amount) := by
  unfold redeem
  rw [hacct]
  dsimp only
  rw [if_pos hamt, hp]
  dsimp only
  rw [hr]
  dsimp only
  have hms : mutezSubN 1000000 r = .ok (1000000 - r) := by
    unfold mutezSubN
    rw [if_pos hrle]
  rw [hms]
  dsimp only
  have hsd : sendE st.balance (r * amount) =
      .ok (st.balance - ((r * amount : Nat) : Int)) := by
    unfold sendE
    rw [if_pos hsend]
  rw [hsd]

/-- C3: for a sender with a recorded token balance, `redeem(amount)` fails
with `Insufficient token balance` when the balance is below `amount`;
otherwise (given the payout is coverable) the payout sent to the sender is
exactly `schedule[p] * amount` mutez, `freeCollateral` grows by exactly
`(1000000 - schedule[p]) * amount` mutez, and the sender's token balance
drops by exactly `amount` (the record is deleted when it reaches zero). -/
theorem c3_redeem_spec (st : State) (sender : Addr) (amount : Nat) (now p : Int)
    (r : Nat) (acct : TokenAccount)
    (hacct : getKV st.balances sender = some acct)
    (hp : getPeriod st now = .ok p) (hr : getKV st.schedule p = some r)
    (hrle : r ≤ 1000000) (hsend : ((r * amount : Nat) : Int) ≤ st.balance) :
    (acct.balance < amount →
      redeem st sender amount now = .error "Insufficient token balance") ∧
    (amount ≤ acct.balance →
      ∃ st', redeem st sender amount now = .ok (st', r * amount) ∧
        st'.freeCollateral =
          st.freeCollateral + (((1000000 - r) * amount : Nat) : Int) ∧
        tokenBalanceOf st' sender = acct.balance - amount ∧
        st'.balance = st.balance - ((r * amount : Nat) : Int)) := by
  constructor
  · intro hlt
    unfold redeem
    rw [hacct]
    dsimp only
    rw [if_neg (by omega)]
  · intro hamt
    refine ⟨_, redeem_ok_charac st sender amount now p r acct hacct hamt hp hr hrle hsend, rfl, ?_, rfl⟩
    unfold tokenBalanceOf
    dsimp only
    by_cases h0 : 0 < acct.balance - amount
    · rw [if_pos h0, getKV_setKV_self]
    · rw [if_neg h0, getKV_delKV_self]
      dsimp only
      omega

/-- Witness state for the redeem claims: the test instrument during period 1
with one depositor holding 1050 tokens. -/
def c3State : State :=
  { testState with
    freeCollateral := 1950000000,
    balances := [(7, ⟨1050, []⟩)],
    balance := 3000000000 }

/-- Witness for `c3_redeem_spec`: redeeming 1000 of 1050 tokens at rate
957557 pays 957557000 mutez and releases 42443000 mutez of collateral. -/
theorem c3_redeem_spec_witness :
    ∃ st', redeem c3State 7 1000 87401 = .ok (st', 957557 * 1000) ∧
      st'.freeCollateral =
        c3State.freeCollateral + (((1000000 - 957557) * 1000 : Nat) : Int) ∧
      tokenBalanceOf st' 7 = (⟨1050, []⟩ : TokenAccount).balance - 1000 ∧
      st'.balance = c3State.balance - ((957557 * 1000 : Nat) : Int) :=
  (c3_redeem_spec c3State 7 1000 87401 1 957557 ⟨1050, []⟩ (by decide) (by decide)
    (by decide) (by decide) (by decide)).2 (by decide)

theorem split_conserve {r amt : Nat} (hle : r ≤ 1000000) (fc : Int) :
    ((r * amt : Nat) : Int) + (fc + (((1000000 - r) * amt : Nat) : Int) - fc) =
      1000000 * (amt : Int) := by
  have hn : r * amt + (1000000 - r) * amt = 1000000 * amt := by
    rw [← Nat.add_mul]
    congr 1
    omega
  have h1 : ((r * amt : Nat) : Int) + (((1000000 - r) * amt : Nat) : Int) =
      1000000 * (amt : Int) := by
    rw [← Nat.cast_add, hn, Nat.cast_mul]
    norm_num
  linarith

theorem getPeriod_ext {st st' : State} (h1 : st'.start = st.start)
    (h2 : st'.duration = st.duration) (h3 : st'.interval = st.interval)
    (h4 : st'.periods = st.periods) (now : Int) :
    getPeriod st' now = getPeriod st now := by
  unfold getPeriod
  rw [h1, h2, h3, h4]

/-- C9: value is conserved exactly by every successful redemption split: the
mutez paid out plus the mutez of collateral released equal `1000000 * amount`
both in `redeem` and in each per-depositor step of `terminate` (where the
step's amount is the depositor's recorded token balance, 0 for an absent
record). -/
theorem c9_value_conservation :
    (∀ (st : State) (sender : Addr) (amount : Nat) (now : Int) (st' : State) (x : Nat),
      redeem st sender amount now = .ok (st', x) →
      (x : Int) + (st'.freeCollateral - st.freeCollateral) = 1000000 * (amount : Int)) ∧
    (∀ (p : Int) (st : State) (acc : List (Addr × Nat)) (d : Addr)
      (st2 : State) (acc2 : List (Addr × Nat)),
      terminateBody p (st, acc) d = .ok (st2, acc2) →
      ((payoutSum acc2 : Nat) : Int) - ((payoutSum acc : Nat) : Int) +
        (st2.freeCollateral - st.freeCollateral) =
        1000000 * ((tokenBalanceOf st d : Nat) : Int)) := by
  constructor
  · intro st sender amount now st' x h
    unfold redeem at h
    repeat' first
      | (split at h)
      | (dsimp only at h)
    all_goals try exact Except.noConfusion h
    all_goals
      injection h with h2
      injection h2 with h3 h4
      subst h3
      subst h4
      dsimp
      obtain ⟨ho, hle⟩ := mutezSubN_ok (by assumption)
      subst ho
      exact split_conserve hle st.freeCollateral
  · intro p st acc d st2 acc2 h
    unfold terminateBody at h
    dsimp only at h
    cases hb : getKV st.balances d with
    | none =>
      rw [hb] at h
      dsimp only at h
      injection h with h2
      injection h2 with h3 h4
      subst h3
      subst h4
      simp [tokenBalanceOf, hb]
    | some acct =>
      rw [hb] at h
      dsimp only at h
      cases hrq : getKV st.schedule p with
      | none =>
        rw [hrq] at h
        exact Except.noConfusion h
      | some rate =>
        rw [hrq] at h
        dsimp only at h
        cases hms : mutezSubN 1000000 rate with
        | error e =>
          rw [hms] at h
          exact Except.noConfusion h
        | ok oneMinus =>
          rw [hms] at h
          dsimp only at h
          cases hsd : sendE st.balance (rate * acct.balance) with
          | error e =>
            rw [hsd] at h
            exact Except.noConfusion h
          | ok bal' =>
            rw [hsd] at h
            dsimp only at h
            injection h with h2
            injection h2 with h3 h4
            subst h3
            subst h4
            dsimp
            obtain ⟨ho, hle⟩ := mutezSubN_ok hms
            subst ho
            have hsum : payoutSum (acc ++ [(d, rate * acct.balance)]) =
                payoutSum acc + rate * acct.balance := by
              simp [payoutSum]
            rw [hsum]
            have htb : tokenBalanceOf st d = acct.balance := by
              unfold tokenBalanceOf
              rw [hb]
            rw [htb]
            have hps : ((payoutSum acc + rate * acct.balance : Nat) : Int) -
                ((payoutSum acc : Nat) : Int) = ((rate * acct.balance : Nat) : Int) := by
              push_cast
              ring
            rw [hps]
            exact split_conserve hle st.freeCollateral

/-- Witness state for the conservation claim. -/
def c9State : State :=
  { testState with
    freeCollateral := 1000,
    balances := [(4, ⟨50, []⟩)],
    balance := 10000000000 }

/-- Result of redeeming 20 of the 50 tokens of `c9State` at period 0. -/
def c9StateAfter : State :=
  { c9State with
    freeCollateral := 953400,
    balances := [(4, ⟨30, []⟩)],
    balance := 9980952400 }

/-- Witness for `c9_value_conservation` on a concrete redemption. -/
theorem c9_value_conservation_witness :
    ((952380 * 20 : Nat) : Int) +
      (c9StateAfter.freeCollateral - c9State.freeCollateral) =
      1000000 * ((20 : Nat) : Int) :=
  c9_value_conservation.1 c9State 4 20 1001 c9StateAfter (952380 * 20) (by decide)

/-- C4: a deposit of `v` accepted at period `p` (rate `r`), immediately
redeemed in full at the same period, pays back exactly `v - v % r`: the
rounding loss is `v % r`, the remainder discarded by the claim's floor
division, never negative and strictly below one token's price `r`. -/
theorem c4_round_trip (st : State) (sender : Addr) (v : Nat) (now p : Int)
    (r : Nat) (hp : getPeriod st now = .ok p) (hr : getKV st.schedule p = some r)
    (hrpos : 0 < r) (hrle : r ≤ 1000000) (hbal : 0 ≤ st.balance) (hv : 0 < v)
    (hwc : v / 1000000 < v / r)
    (hfc : (((v / r - v / 1000000) * 1000000 : Nat) : Int) ≤ st.freeCollateral) :
    ∃ st1 st2 payout,
      deposit st sender v now = .ok st1 ∧
      redeem st1 sender (v / r) now = .ok (st2, payout) ∧
      payout = v - v % r ∧ payout ≤ v ∧ v % r < r := by
  have hdep := deposit_ok_charac st sender v now p r hp hr hrpos hv hwc hfc
  have hacct := creditBalance_getKV st.balances sender (v / r)
  have hmul : r * (v / r) ≤ v := by
    rw [Nat.mul_comm]
    exact Nat.div_mul_le_self v r
  have hsend : ((r * (v / r) : Nat) : Int) ≤ st.balance + (v : Int) := by
    have hc : ((r * (v / r) : Nat) : Int) ≤ (v : Int) := Nat.cast_le.mpr hmul
    omega
  have hred := redeem_ok_charac
    { st with
      freeCollateral :=
        st.freeCollateral - (((v / r - v / 1000000) * 1000000 : Nat) : Int),
      balances := creditBalance st.balances sender (v / r),
      balance := st.balance + (v : Int) }
    sender (v / r) now p r _
    hacct (Nat.le_add_left _ _)
    ((getPeriod_ext rfl rfl rfl rfl now).trans hp) hr hrle hsend
  refine ⟨_, _, _, hdep, hred, ?_, ?_, ?_⟩
  · have hdm := Nat.div_add_mod v r
    omega
  · exact hmul
  · exact Nat.mod_lt v hrpos

/-- Witness for `c4_round_trip`: 21 tez deposited at period 0 (rate 952380)
buys 22 tokens; redeeming all 22 immediately pays back 20952360 mutez, a
rounding loss of 47640 mutez = 21000000 % 952380. -/
theorem c4_round_trip_witness :
    ∃ st1 st2 payout,
      deposit c2State 4 21000000 1001 = .ok st1 ∧
      redeem st1 4 (21000000 / 952380) 1001 = .ok (st2, payout) ∧
      payout = 21000000 - 21000000 % 952380 ∧ payout ≤ 21000000 ∧
      21000000 % 952380 < 952380 :=
  c4_round_trip c2State 4 21000000 1001 0 952380 (by decide) (by decide)
    (by decide) (by decide) (by decide) (by decide) (by decide) (by decide)

/-- C1 (amended): in every state reachable by any sequence of the six entry
points with arbitrary parameters, `freeCollateral ≥ 0`. The companion bound
`freeCollateral ≤ depositedCollateral` of the original claim is refuted by
`c1_counterexample`. -/
theorem c1_amended_free_collateral_nonneg (st : State) (dep : Int)
    (h : Reach st dep) : 0 ≤ st.freeCollateral := by
  induction h with
  | init schedule duration interval periods start => simp [initState]
  | step_default st dep amount _ ih =>
    dsimp only [Tst.default]
    omega
  | step_deposit st dep sender amount now st' _ hstep ih =>
    exact deposit_ok_fc_nonneg hstep
  | step_redeem st dep sender amount now st' x _ hstep ih =>
    exact le_trans ih (redeem_ok_fc_mono hstep)
  | step_terminate st dep sender depositors now st' xs _ hstep ih =>
    exact le_trans ih (terminate_ok_fc_mono hstep)
  | step_depositCollateral st dep sender amount st' _ hstep ih =>
    rw [depositCollateral_ok_fc hstep]
    omega
  | step_withdrawCollateral st dep sender amount st' x _ hstep ih =>
    exact withdrawCollateral_ok_fc_nonneg hstep

/-- Counterexample to C1 as stated: a single `default` call (baker reward)
on a fresh instrument yields a reachable state whose `freeCollateral` is 100
mutez while the cumulative net collateral contributed by guarantors is 0, so
`freeCollateral ≤ depositedCollateral` fails. -/
theorem c1_counterexample :
    Reach c1State 0 ∧ 0 < c1State.freeCollateral ∧ ¬ (c1State.freeCollateral ≤ 0) :=
  ⟨Reach.step_default _ _ _ (Reach.init testSchedule 864000 86400 10 1000),
   by decide, by decide⟩

/-- Witness for `c1_amended_free_collateral_nonneg` on a concrete reachable
state. -/
theorem c1_amended_witness : 0 ≤ c1State.freeCollateral :=
  c1_amended_free_collateral_nonneg c1State 0
    (Reach.step_default _ _ _ (Reach.init testSchedule 864000 86400 10 1000))

theorem natDiv_ok {a b c : Nat} (h : natDiv a b = .ok c) : b ≠ 0 ∧ c = a / b := by
  unfold natDiv at h
  split at h
  · exact Except.noConfusion h
  · next hb =>
      cases h
      exact ⟨hb, rfl⟩

theorem div_upper_bound (x d : Nat) (hd : 0 < d) : x ≤ d * (x / d) + (d - 1) := by
  conv_lhs => rw [← Nat.div_add_mod x d]
  exact Nat.add_le_add_left (Nat.le_sub_one_of_lt (Nat.mod_lt x hd)) _

theorem mul_div_le_nat (x d : Nat) : d * (x / d) ≤ x := by
  rw [Nat.mul_comm]
  exact Nat.div_mul_le_self x d

/-- Core arithmetic of the dilution bound: recomputing a share against the
grown balance and re-reading it against the grown free collateral loses at
most two units plus one part-per-million granule of the new collateral. -/
theorem dilution_bound (B a F s : Nat) (hFB : F ≤ B) (hN : 0 < B + a) :
    1000000 * (F * s / 1000000) ≤
      1000000 * ((F + a) * (B * s / 1000000 * 1000000 / (B + a)) / 1000000) +
        2 * 1000000 + (F + a) := by
  have hMpos : (0 : Nat) < 1000000 := by norm_num
  have f1 : 1000000 * (F * s / 1000000) ≤ F * s := mul_div_le_nat (F * s) 1000000
  have f2 : B * s ≤ 1000000 * (B * s / 1000000) + (1000000 - 1) :=
    div_upper_bound (B * s) 1000000 hMpos
  have f3 : B * s / 1000000 * 1000000 ≤
      (B + a) * (B * s / 1000000 * 1000000 / (B + a)) + ((B + a) - 1) :=
    div_upper_bound _ (B + a) hN
  have f4 : (F + a) * (B * s / 1000000 * 1000000 / (B + a)) ≤
      1000000 * ((F + a) * (B * s / 1000000 * 1000000 / (B + a)) / 1000000) +
        (1000000 - 1) :=
    div_upper_bound _ 1000000 hMpos
  have f5 : F * (B + a) ≤ (F + a) * B := by
    calc F * (B + a) = F * B + F * a := by ring
      _ ≤ F * B + B * a := Nat.add_le_add_left (Nat.mul_le_mul_right a hFB) _
      _ = (F + a) * B := by ring
  have h6 : F + a ≤ B + a := by omega
  set c : Nat := B * s / 1000000 with hc
  set w : Nat := c * 1000000 / (B + a) with hw
  set R : Nat := F * s / 1000000 with hR
  set R' : Nat := (F + a) * w / 1000000 with hR'
  have key : 1000000 * R * (B + a) ≤
      (1000000 * R' + 2 * 1000000 + (F + a)) * (B + a) := by
    have g1 : (B + a) * (1000000 - 1) ≤ (B + a) * 1000000 :=
      Nat.mul_le_mul_left _ (Nat.sub_le 1000000 1)
    have g2 : (F + a) * ((B + a) - 1) ≤ (B + a) * (F + a) := by
      rw [Nat.mul_comm (B + a) (F + a)]
      exact Nat.mul_le_mul_left _ (Nat.sub_le (B + a) 1)
    have g3 : (F + a) * (1000000 - 1) ≤ (B + a) * 1000000 :=
      Nat.mul_le_mul h6 (Nat.sub_le 1000000 1)
    calc 1000000 * R * (B + a) ≤ (F * s) * (B + a) := Nat.mul_le_mul_right _ f1
      _ = (F * (B + a)) * s := by ring
      _ ≤ ((F + a) * B) * s := Nat.mul_le_mul_right s f5
      _ = (F + a) * (B * s) := by ring
      _ ≤ (F + a) * (1000000 * c + (1000000 - 1)) := Nat.mul_le_mul_left _ f2
      _ = (F + a) * (c * 1000000) + (F + a) * (1000000 - 1) := by ring
      _ ≤ (F + a) * ((B + a) * w + ((B + a) - 1)) + (F + a) * (1000000 - 1) :=
          Nat.add_le_add_right (Nat.mul_le_mul_left _ f3) _
      _ = (B + a) * ((F + a) * w) + (F + a) * ((B + a) - 1) +
            (F + a) * (1000000 - 1) := by ring
      _ ≤ (B + a) * (1000000 * R' + (1000000 - 1)) + (F + a) * ((B + a) - 1) +
            (F + a) * (1000000 - 1) :=
          Nat.add_le_add_right (Nat.add_le_add_right (Nat.mul_le_mul_left _ f4) _) _
      _ = (B + a) * (1000000 * R') + (B + a) * (1000000 - 1) +
            (F + a) * ((B + a) - 1) + (F + a) * (1000000 - 1) := by ring
      _ ≤ (B + a) * (1000000 * R') + (B + a) * 1000000 +
            (B + a) * (F + a) + (B + a) * 1000000 :=
          Nat.add_le_add (Nat.add_le_add (Nat.add_le_add_left g1 _) g2) g3
      _ = (1000000 * R' + 2 * 1000000 + (F + a)) * (B + a) := by ring
  exact Nat.le_of_mul_le_mul_right key hN

/-- The view `getGuarantorRedeemableValue` reduces to the plain floored
product whenever the recorded share is at most 1,000,000 ppm. -/
theorem getGuarantorRedeemableValue_eq (st : State) (g : Addr) (s : Nat)
    (hg : getKV st.collateral g = some s) (hs : s ≤ 1000000)
    (hfc : 0 ≤ st.freeCollateral) :
    getGuarantorRedeemableValue st g =
      some (splitTokens st.freeCollateral s 1000000) := by
  unfold getGuarantorRedeemableValue
  rw [hg]
  dsimp only
  by_cases hlt : ((splitTokens st.freeCollateral s 1000000 : Nat) : Int) < st.freeCollateral
  · rw [if_pos hlt]
  · rw [if_neg hlt]
    have hle : splitTokens st.freeCollateral s 1000000 ≤ st.freeCollateral.toNat := by
      unfold splitTokens
      calc st.freeCollateral.toNat * s / 1000000 ≤
          st.freeCollateral.toNat * 1000000 / 1000000 :=
            Nat.div_le_div_right (Nat.mul_le_mul_left _ hs)
        _ = st.freeCollateral.toNat := by omega
    congr 1
    omega

theorem rebalanceDepositLoop_notmem (sender : Addr) (cB N inc : Nat) (g : Addr)
    (gs : List Addr) :
    g ∉ gs →
    ∀ coll fl res, rebalanceDepositLoop sender cB N inc (coll, fl) gs = .ok res →
      getKV res.1 g = getKV coll g := by
  induction gs with
  | nil =>
    intro _ coll fl res h
    unfold rebalanceDepositLoop at h
    cases h
    rfl
  | cons b gs ih =>
    intro hmem coll fl res h
    have hgb : g ≠ b := fun hc => hmem (hc ▸ List.mem_cons_self b gs)
    have hgs : g ∉ gs := fun hc => hmem (List.mem_cons_of_mem b hc)
    unfold rebalanceDepositLoop at h
    cases hkv : getKV coll b with
    | none =>
      rw [hkv] at h
      exact Except.noConfusion h
    | some s =>
      rw [hkv] at h
      dsimp only at h
      by_cases hbs : b ≠ sender
      · rw [if_pos hbs] at h
        cases hd : natDiv (cB * s / 1000000 * 1000000) N with
        | error e =>
          rw [hd] at h
          exact Except.noConfusion h
        | ok share =>
          rw [hd] at h
          dsimp only at h
          rw [ih hgs _ _ _ h, getKV_setKV_ne _ _ _ _ hgb]
      · rw [if_neg hbs] at h
        cases hd : natDiv ((cB * s / 1000000 + inc) * 1000000) N with
        | error e =>
          rw [hd] at h
          exact Except.noConfusion h
        | ok share =>
          rw [hd] at h
          dsimp only at h
          rw [ih hgs _ _ _ h, getKV_setKV_ne _ _ _ _ hgb]

theorem rebalanceDepositLoop_mem (sender : Addr) (cB N inc : Nat) (g : Addr)
    (hgsender : g ≠ sender) (gs : List Addr) :
    g ∈ gs → gs.Nodup →
    ∀ coll fl res s, getKV coll g = some s →
      rebalanceDepositLoop sender cB N inc (coll, fl) gs = .ok res →
      N ≠ 0 ∧ getKV res.1 g = some (cB * s / 1000000 * 1000000 / N) := by
  induction gs with
  | nil =>
    intro hmem
    exact absurd hmem (List.not_mem_nil g)
  | cons b gs ih =>
    intro hmem hnd coll fl res s hs h
    rw [List.nodup_cons] at hnd
    by_cases hgb : g = b
    · subst hgb
      unfold rebalanceDepositLoop at h
      rw [hs] at h
      dsimp only at h
      rw [if_pos hgsender] at h
      cases hd : natDiv (cB * s / 1000000 * 1000000) N with
      | error e =>
        rw [hd] at h
        exact Except.noConfusion h
      | ok share =>
        rw [hd] at h
        dsimp only at h
        obtain ⟨hN, hsh⟩ := natDiv_ok hd
        refine ⟨hN, ?_⟩
        rw [rebalanceDepositLoop_notmem sender cB N inc g gs hnd.1 _ _ _ h,
          getKV_setKV_self, hsh]
    · have hmem' : g ∈ gs := by
        cases List.mem_cons.mp hmem with
        | inl hc => exact absurd hc hgb
        | inr hc => exact hc
      unfold rebalanceDepositLoop at h
      cases hkv : getKV coll b with
      | none =>
        rw [hkv] at h
        exact Except.noConfusion h
      | some sb =>
        rw [hkv] at h
        dsimp only at h
        by_cases hbsend : b ≠ sender
        · rw [if_pos hbsend] at h
          cases hd : natDiv (cB * sb / 1000000 * 1000000) N with
          | error e =>
            rw [hd] at h
            exact Except.noConfusion h
          | ok share =>
            rw [hd] at h
            dsimp only at h
            exact ih hmem' hnd.2 _ _ _ s
              (by rw [getKV_setKV_ne _ _ _ _ hgb]; exact hs) h
        · rw [if_neg hbsend] at h
          cases hd : natDiv ((cB * sb / 1000000 + inc) * 1000000) N with
          | error e =>
            rw [hd] at h
            exact Except.noConfusion h
          | ok share =>
            rw [hd] at h
            dsimp only at h
            exact ih hmem' hnd.2 _ _ _ s
              (by rw [getKV_setKV_ne _ _ _ _ hgb]; exact hs) h

/-- C8 (amended): an existing guarantor's redeemable value can decrease when
another guarantor deposits collateral, because the rebalance recomputes the
share with two floor divisions against the contract balance; the decrease is
bounded: `1000000 * R ≤ 1000000 * R' + 2 * 1000000 + freeCollateral'`, i.e.
at most two mutez plus one millionth of the new free collateral (stated for
states with `0 ≤ freeCollateral ≤ balance`, which every reachable state
satisfies, and a duplicate-free guarantor list). -/
theorem c8_amended_dilution_bound (st : State) (sender g : Addr) (a : Nat)
    (st' : State) (s : Nat)
    (h1 : depositCollateral st sender a = .ok st')
    (h2 : getKV st.collateral g = some s)
    (h3 : g ∈ st.guarantors) (h4 : st.guarantors.Nodup) (h5 : g ≠ sender)
    (h6 : st.freeCollateral ≤ st.balance) (h7 : 0 ≤ st.freeCollateral)
    (h8 : s ≤ 1000000) :
    ∃ R R', getGuarantorRedeemableValue st g = some R ∧
      getGuarantorRedeemableValue st' g = some R' ∧
      1000000 * R ≤ 1000000 * R' + 2 * 1000000 + st'.freeCollateral.toNat := by
  have hbal0 : 0 ≤ st.balance := le_trans h7 h6
  unfold depositCollateral at h1
  dsimp only at h1
  have hne : ¬ st.guarantors.length = 0 := by
    intro hc
    rw [List.length_eq_zero] at hc
    rw [hc] at h3
    exact List.not_mem_nil g h3
  rw [if_neg hne] at h1
  by_cases hpass : getKVD st.collateral sender 0 = 1000000
  · rw [if_pos hpass] at h1
    injection h1 with h1'
    subst h1'
    refine ⟨_, _, getGuarantorRedeemableValue_eq st g s h2 h8 h7,
      getGuarantorRedeemableValue_eq _ g s h2 h8 (by dsimp only; omega), ?_⟩
    unfold splitTokens
    dsimp only
    have hF : (st.freeCollateral + (a : Int)).toNat = st.freeCollateral.toNat + a := by
      omega
    rw [hF]
    have hmono : st.freeCollateral.toNat * s / 1000000 ≤
        (st.freeCollateral.toNat + a) * s / 1000000 :=
      Nat.div_le_div_right (Nat.mul_le_mul_right s (by omega))
    have hmul := Nat.mul_le_mul_left 1000000 hmono
    omega
  · rw [if_neg hpass] at h1
    cases hreb : rebalanceCollateralDeposit
        { st with balance := st.balance + (a : Int) } sender a with
    | error e =>
      rw [hreb] at h1
      exact Except.noConfusion h1
    | ok st1 =>
      rw [hreb] at h1
      injection h1 with h1'
      subst h1'
      unfold rebalanceCollateralDeposit at hreb
      dsimp only at hreb
      have hsimp : st.balance + (a : Int) - (a : Int) = st.balance := by ring
      rw [hsimp] at hreb
      have hA : asNat st.balance = .ok st.balance.toNat := by
        unfold asNat
        rw [if_pos hbal0]
      rw [hA] at hreb
      dsimp only at hreb
      cases hloop : rebalanceDepositLoop sender st.balance.toNat
          ((st.balance + (a : Int)).toNat) a (st.collateral, true) st.guarantors with
      | error e =>
        rw [hloop] at hreb
        exact Except.noConfusion hreb
      | ok pres =>
        rw [hloop] at hreb
        obtain ⟨coll1, isNew⟩ := pres
        dsimp only at hreb
        obtain ⟨hN, hg1⟩ := rebalanceDepositLoop_mem sender st.balance.toNat
          ((st.balance + (a : Int)).toNat) a g h5 st.guarantors h3 h4
          st.collateral true (coll1, isNew) s h2 hloop
        have hNeq : ((st.balance + (a : Int)).toNat) = st.balance.toNat + a := by
          omega
        have hNpos : 0 < st.balance.toNat + a := by omega
        have hc1 : st.balance.toNat * s / 1000000 ≤ st.balance.toNat := by
          calc st.balance.toNat * s / 1000000 ≤
              st.balance.toNat * 1000000 / 1000000 :=
                Nat.div_le_div_right (Nat.mul_le_mul_left _ h8)
            _ = st.balance.toNat := by omega
        have hs2 : st.balance.toNat * s / 1000000 * 1000000 /
            ((st.balance + (a : Int)).toNat) ≤ 1000000 := by
          rw [hNeq]
          calc st.balance.toNat * s / 1000000 * 1000000 / (st.balance.toNat + a) ≤
              (st.balance.toNat + a) * 1000000 / (st.balance.toNat + a) :=
                Nat.div_le_div_right (Nat.mul_le_mul_right _ (by omega))
            _ = 1000000 := Nat.mul_div_cancel_left 1000000 hNpos
        have hfin : ∀ st2 : State,
            getKV st2.collateral g =
              some (st.balance.toNat * s / 1000000 * 1000000 /
                ((st.balance + (a : Int)).toNat)) →
            st2.freeCollateral = st.freeCollateral + (a : Int) →
            ∃ R R', getGuarantorRedeemableValue st g = some R ∧
              getGuarantorRedeemableValue st2 g = some R' ∧
              1000000 * R ≤ 1000000 * R' + 2 * 1000000 + st2.freeCollateral.toNat := by
          intro st2 hcoll hFC
          refine ⟨_, _, getGuarantorRedeemableValue_eq st g s h2 h8 h7,
            getGuarantorRedeemableValue_eq st2 g _ hcoll hs2 (by rw [hFC]; omega), ?_⟩
          unfold splitTokens
          rw [hFC]
          have hF' : (st.freeCollateral + (a : Int)).toNat =
              st.freeCollateral.toNat + a := by omega
          rw [hF', hNeq]
          exact dilution_bound st.balance.toNat a st.freeCollateral.toNat s
            (by omega) hNpos
        cases isNew with
        | true =>
          try dsimp only at hreb
          cases hd2 : natDiv (a * 1000000) ((st.balance + (a : Int)).toNat) with
          | error e =>
            rw [hd2] at hreb
            exact Except.noConfusion hreb
          | ok share2 =>
            rw [hd2] at hreb
            dsimp only at hreb
            injection hreb with hre
            subst hre
            exact hfin _ (by dsimp only; rw [getKV_setKV_ne _ _ _ _ h5]; exact hg1) rfl
        | false =>
          try dsimp only at hreb
          injection hreb with hre
          subst hre
          exact hfin _ hg1 rfl

/-- Counterexample to C8 as stated: on a state with two 50% guarantors, 1 tez
of free collateral and a 23 tez contract balance (reachable by two 1 tez
collateral deposits and one 21 tez depositor deposit), guarantor 2 depositing
a single extra mutez strictly decreases guarantor 1's redeemable value from
500000 to 499999 mutez. -/
theorem c8_counterexample :
    depositCollateral c8State 2 1 = .ok c8StateAfter ∧
    getGuarantorRedeemableValue c8State 1 = some 500000 ∧
    getGuarantorRedeemableValue c8StateAfter 1 = some 499999 ∧
    499999 < 500000 := by decide

/-- Witness for `c8_amended_dilution_bound` on the concrete dilution
scenario. -/
theorem c8_amended_witness :
    ∃ R R', getGuarantorRedeemableValue c8State 1 = some R ∧
      getGuarantorRedeemableValue c8StateAfter 1 = some R' ∧
      1000000 * R ≤ 1000000 * R' + 2 * 1000000 + c8StateAfter.freeCollateral.toNat :=
  c8_amended_dilution_bound c8State 2 1 1 c8StateAfter 500000 (by decide) (by decide)
    (by decide) (by decide) (by decide) (by decide) (by decide) (by decide)
